import Mathlib

/-!
Verification of the similarity-and-selection engine of the Songsight
data-science API (repository `Build-Week-Spotify-Song-Suggester-PT/DS-API`).

The embedding below follows `src/song_suggester/app.py` (the current
backend).  Conventions of the shallow embedding:

* Floating-point feature values and request bounds are modelled as `Int`
  (every claim considered here is purely order-theoretic, so only the
  ordering of values matters, never rounding).
* A track row of the reflected `track` table is the structure `Track`.
  The table's ~90 columns are represented by the database primary key
  `id`, the Spotify identifier `track_id`, the display strings, the
  fourteen raw audio-feature columns that `to_dict` exposes (the ones a
  caller filters and sorts on), and `features`, which stands for the
  89-component scaled vector assembled by `Track.to_array`.
* `request.args.get(..., type=float)` yields `None` when the parameter is
  absent, so an optional bound is `Option Int`; Python truthiness of such
  a value (`if min_range:`) is the function `truthy` (both `None` and
  `0.0` are falsy).
* A SQLAlchemy query without `order_by` returns rows in table order; it is
  modelled as `List.filter` over the catalog list, which keeps that order.
* Code that lets a Python exception escape to the web layer (a `None`
  attribute access, or `eval` of a condition string naming a column that
  does not exist) is modelled by a distinguished error value
  (`RangeResult.evalError`, or `none` in an `Option` result).
* The k-d tree is loaded from a pickle (`tree.p`); its query procedure is
  not part of the repository, so it is modelled from the spec (see
  `treeQuery` and `queryKnn`).
-/

/-- One row of the `track` table as reflected by `song_suggester/app.py`:
database primary key `id`, Spotify `track_id`, display strings, the raw
audio-feature columns of `Track.to_dict`, and the scaled feature vector
`Track.to_array` used by the k-d tree. -/
structure Track where
  id : Nat
  track_id : String
  track_name : String
  artist_name : String
  acousticness : Int
  danceability : Int
  duration_ms : Int
  energy : Int
  instrumentalness : Int
  key : Int
  liveness : Int
  loudness : Int
  mode : Int
  speechiness : Int
  tempo : Int
  time_signature : Int
  valence : Int
  popularity : Int
  features : List Int
  deriving DecidableEq

/-- Resolution of `eval(f'Track.{feature}')` for the fourteen raw
audio-feature columns: a known column name yields its accessor, any other
string yields `none` (in the source, `eval` then raises an uncaught
`AttributeError`). -/
def featValF : String → Option (Track → Int)
  | "acousticness" => some Track.acousticness
  | "danceability" => some Track.danceability
  | "duration_ms" => some Track.duration_ms
  | "energy" => some Track.energy
  | "instrumentalness" => some Track.instrumentalness
  | "key" => some Track.key
  | "liveness" => some Track.liveness
  | "loudness" => some Track.loudness
  | "mode" => some Track.mode
  | "speechiness" => some Track.speechiness
  | "tempo" => some Track.tempo
  | "time_signature" => some Track.time_signature
  | "valence" => some Track.valence
  | "popularity" => some Track.popularity
  | _ => none

/-- Python truthiness of an optional float parameter: `None` and `0.0`
are falsy, every other value is truthy. -/
def truthy : Option Int → Bool
  | none => false
  | some x => x != 0

/-- The three observable outcomes of the `/get_range` route:
`emptyDict` is `str({})` (no query was run — the route's docstring calls
this the failure representation), `tracks ts` is `str(ts)` for a row list
`ts`, and `evalError` is an uncaught exception escaping from `eval` of the
interpolated condition string. -/
inductive RangeResult
  | emptyDict
  | tracks (ts : List Track)
  | evalError
  deriving DecidableEq

/-- Embedding of the `/get_range` route body (`src/song_suggester/app.py`
lines 252-271): branch on Python truthiness of `min`/`max`, build the
condition string and `eval` it, run the filter capped at `limit`, else
fall through to `tracks = {}`. -/
def getRange (cat : List Track) (feature : String)
    (minRange maxRange : Option Int) (limit : Nat) : RangeResult :=
  if truthy minRange && truthy maxRange then
    match featValF feature with
    | none => .evalError
    | some fv =>
        .tracks ((cat.filter fun t =>
          decide (minRange.getD 0 ≤ fv t ∧ fv t ≤ maxRange.getD 0)).take limit)
  else if truthy minRange then
    match featValF feature with
    | none => .evalError
    | some fv =>
        .tracks ((cat.filter fun t => decide (minRange.getD 0 ≤ fv t)).take limit)
  else if truthy maxRange then
    match featValF feature with
    | none => .evalError
    | some fv =>
        .tracks ((cat.filter fun t => decide (fv t ≤ maxRange.getD 0)).take limit)
  else .emptyDict

/-- Lexicographic comparison by an integer sort key `d` with ties broken
by a second, linearly ordered key `g`.  Both the spec's k-NN tie-break
and the ranked-order relations below are instances of this shape. -/
def keyLex {α β : Type} [LinearOrder β] (d : α → Int) (g : α → β)
    (x y : α) : Prop :=
  d x < d y ∨ (d x = d y ∧ g x ≤ g y)

instance {α β : Type} [LinearOrder β] (d : α → Int) (g : α → β) :
    DecidableRel (keyLex d g) := fun x y =>
  inferInstanceAs (Decidable (d x < d y ∨ (d x = d y ∧ g x ≤ g y)))

instance {α β : Type} [LinearOrder β] (d : α → Int) (g : α → β) :
    IsTotal α (keyLex d g) := by
  constructor
  intro x y
  rcases lt_trichotomy (d x) (d y) with h | h | h
  · exact Or.inl (Or.inl h)
  · rcases le_total (g x) (g y) with hg | hg
    · exact Or.inl (Or.inr ⟨h, hg⟩)
    · exact Or.inr (Or.inr ⟨h.symm, hg⟩)
  · exact Or.inr (Or.inl h)

instance {α β : Type} [LinearOrder β] (d : α → Int) (g : α → β) :
    IsTrans α (keyLex d g) := by
  constructor
  intro x y z hxy hyz
  rcases hxy with h₁ | ⟨e₁, t₁⟩
  · rcases hyz with h₂ | ⟨e₂, _⟩
    · exact Or.inl (h₁.trans h₂)
    · exact Or.inl (e₂ ▸ h₁)
  · rcases hyz with h₂ | ⟨e₂, t₂⟩
    · exact Or.inl (e₁ ▸ h₂)
    · exact Or.inr ⟨e₁.trans e₂, t₁.trans t₂⟩

/-- Squared Euclidean distance between two feature vectors (the square
root is strictly monotone, so every ordering statement about Euclidean
distance is equivalent to the same statement about `sqDist`). -/
def sqDist (xs ys : List Int) : Int :=
  (List.zipWith (fun a b => (a - b) ^ 2) xs ys).sum

/-- Modelled from the spec: the query procedure of the pickled k-d tree
(`tree.query`, whose implementation is not part of the repository).
Per spec §4.2 it returns the `k` nearest rows by ascending Euclidean
distance, ties broken by the fixed order on the rows' identifiers — for
the tree those identifiers are the row positions — and all rows when the
tree holds fewer than `k`.  Realized as: sort the row positions by
(squared distance, position) and take `k`. -/
def treeQuery (rows : List (List Int)) (v : List Int) (k : Nat) : List Nat :=
  ((List.range rows.length).insertionSort
    (keyLex (fun i => sqDist (rows.getD i []) v) id)).take k

/-- Modelled from the spec: `Index.query_knn` of spec §4.2 over labelled
entries — the `k` entries nearest to `v` by ascending Euclidean distance,
each with its distance, ties broken lexicographically by identifier, all
entries when fewer than `k` exist. -/
def queryKnn (entries : List (String × List Int)) (v : List Int) (k : Nat) :
    List (String × Int) :=
  ((entries.insertionSort (keyLex (fun e => sqDist e.2 v) Prod.fst)).map
    (fun e => (e.1, sqDist e.2 v))).take k

/-- Embedding of the `/get_like` route body (`src/song_suggester/app.py`
lines 287-299): resolve the seed row (`None` → uncaught `AttributeError`,
modelled `none`), query the tree for `num + 1` nearest row positions,
then select the catalog rows whose primary key `id` is among those
positions and whose `track_id` differs from the seed.  The `IN` query
carries no `order_by`, so the rows come back in table order. -/
def getLike (cat : List Track) (seed : String) (num : Nat) :
    Option (Track × List Track) :=
  match cat.find? (fun t => t.track_id == seed) with
  | none => none
  | some q1 =>
      let indices := treeQuery (cat.map Track.features) q1.features (num + 1)
      some (q1, cat.filter fun t =>
        decide (t.id ∈ indices) && (t.track_id != seed))

/-- Embedding of the `/getlike` route of `src/songsight_es/app.py` (lines
92-107): the seed row (possibly `None`, which that route tolerates) and
`num` rows taken at random offset `r` from the non-seed rows. -/
def getlikeES (cat : List Track) (seed : String) (num r : Nat) :
    Option Track × List Track :=
  (cat.find? (fun t => t.track_id == seed),
   ((cat.filter fun t => t.track_id != seed).drop r).take num)

/-- Ranked-order relation used by `/get_random`: ascending by the feature
value when `asc`, descending otherwise; the sort is stable, so rows with
equal feature values keep table order. -/
def featRel (fv : Track → Int) : Bool → Track → Track → Prop
  | true, t₁, t₂ => fv t₁ ≤ fv t₂
  | false, t₁, t₂ => fv t₂ ≤ fv t₁

instance (fv : Track → Int) : (asc : Bool) → DecidableRel (featRel fv asc)
  | true, t₁, t₂ => Int.decLe (fv t₁) (fv t₂)
  | false, t₁, t₂ => Int.decLe (fv t₂) (fv t₁)

instance (fv : Track → Int) (asc : Bool) : IsTotal Track (featRel fv asc) := by
  constructor
  intro a b
  cases asc
  · exact Int.le_total (fv b) (fv a)
  · exact Int.le_total (fv a) (fv b)

instance (fv : Track → Int) (asc : Bool) : IsTrans Track (featRel fv asc) := by
  constructor
  intro a b c h₁ h₂
  cases asc
  · exact Int.le_trans h₂ h₁
  · exact Int.le_trans h₁ h₂

/-- Model of Python's `str.lower()` on the `order` parameter, expressed
over the character list so that concrete calls evaluate inside
proofs. -/
def lowerStr (s : String) : String := ⟨s.data.map Char.toLower⟩

/-- The selection window of `/get_random`: the catalog ordered by the
feature (ascending exactly when `order.lower() == 'asc'`), limited to the
first `top` rows. -/
def rankWindow (cat : List Track) (fv : Track → Int) (order : String)
    (top : Nat) : List Track :=
  (cat.insertionSort (featRel fv (lowerStr order == "asc"))).take top

/-- Embedding of the `/get_random` route body (`src/song_suggester/app.py`
lines 320-335): `eval` the feature accessor (unknown column → uncaught
exception, modelled `none`), order and limit to the window, then return
`num` rows from offset `r`.  The random draw `int(rowCount*random.random())`
is passed in as `r`; its possible values are `0 ≤ r < rowCount` (and `0`
when the window is empty). -/
def getRandom (cat : List Track) (feature : String) (num top : Nat)
    (order : String) (r : Nat) : Option (List Track) :=
  match featValF feature with
  | none => none
  | some fv => some (((rankWindow cat fv order top).drop r).take num)

/-- Builder for concrete test rows: primary key, Spotify id and scaled
vector, every raw audio-feature column zero. -/
def mkTrack (i : Nat) (tid : String) (feats : List Int) : Track :=
  { id := i, track_id := tid, track_name := "", artist_name := "",
    acousticness := 0, danceability := 0, duration_ms := 0, energy := 0,
    instrumentalness := 0, key := 0, liveness := 0, loudness := 0, mode := 0,
    speechiness := 0, tempo := 0, time_signature := 0, valence := 0,
    popularity := 0, features := feats }

/-- Invariant assumed by `/get_like` when it feeds tree row positions into
a primary-key `IN` filter: the row at list position `i` has `id = i`. -/
def rowAligned (cat : List Track) : Prop :=
  ∀ i, (h : i < cat.length) → (cat[i]).id = i

/-- Concrete catalog (the spec's 2-D illustration, §8): the seed `c` sits
at the last table position while its nearest neighbors occupy earlier
positions in reverse distance order. -/
def catA : List Track :=
  [mkTrack 0 "a" [5, 5], mkTrack 1 "b" [1, 0], mkTrack 2 "c" [0, 0]]

/-- Concrete catalog of three tracks with identical feature vectors. -/
def catD : List Track :=
  [mkTrack 0 "a" [0], mkTrack 1 "b" [0], mkTrack 2 "c" [0]]

/-- Concrete track with a negative `loudness` value (loudness in the
underlying dataset is measured in negative decibels). -/
def tNeg : Track := { mkTrack 0 "n" [] with loudness := -7 }

/-- Builder for concrete rows carrying only a `popularity` value. -/
def pTrack (i : Nat) (tid : String) (p : Int) : Track :=
  { mkTrack i tid [] with popularity := p }

/-- Concrete catalog of five tracks in strictly descending popularity. -/
def catP : List Track :=
  [pTrack 0 "t1" 50, pTrack 1 "t2" 40, pTrack 2 "t3" 30,
   pTrack 3 "t4" 20, pTrack 4 "t5" 10]

/-! Helper lemmas shared by the claim theorems. -/

/-- Unfolding lemma for a successful `/get_like` call: the seed row was
found, and the result list is the table-order filter of the catalog by
tree-index membership and seed exclusion. -/
theorem getLike_eq_some {cat : List Track} {seed : String} {num : Nat}
    {q1 : Track} {res : List Track}
    (h : getLike cat seed num = some (q1, res)) :
    cat.find? (fun t => t.track_id == seed) = some q1 ∧
    res = cat.filter fun t =>
      decide (t.id ∈ treeQuery (cat.map Track.features) q1.features (num + 1)) &&
        (t.track_id != seed) := by
  cases hf : cat.find? (fun t => t.track_id == seed) with
  | none => simp [getLike, hf] at h
  | some q =>
      simp only [getLike, hf, Option.some.injEq, Prod.mk.injEq] at h
      obtain ⟨hq, hres⟩ := h
      subst hq
      exact ⟨rfl, hres.symm⟩

/-- Claim C2: the results list of `get_like` (and of the earlier
`getlike` route of `songsight_es`) never contains the seed identifier —
both filter on `Track.track_id != seed`. -/
theorem similar_to_excludes_seed :
    (∀ (cat : List Track) (seed : String) (num : Nat) (q1 : Track)
        (res : List Track), getLike cat seed num = some (q1, res) →
      ∀ t ∈ res, t.track_id ≠ seed) ∧
    (∀ (cat : List Track) (seed : String) (num r : Nat),
      ∀ t ∈ (getlikeES cat seed num r).2, t.track_id ≠ seed) := by
  constructor
  · intro cat seed num q1 res h t ht
    obtain ⟨-, hres⟩ := getLike_eq_some h
    subst hres
    have := (List.mem_filter.mp ht).2
    simp only [Bool.and_eq_true, decide_eq_true_eq, bne_iff_ne, ne_eq] at this
    exact this.2
  · intro cat seed num r t ht
    have h₁ : t ∈ cat.filter fun t => t.track_id != seed :=
      List.mem_of_mem_drop (List.mem_of_mem_take ht)
    have := (List.mem_filter.mp h₁).2
    simpa [bne_iff_ne] using this

/-- Witness for C2 at the concrete catalog `catA` with seed `c`. -/
theorem similar_to_excludes_seed_witness :
    ∀ t ∈ [mkTrack 0 "a" [5, 5], mkTrack 1 "b" [1, 0]], t.track_id ≠ "c" :=
  similar_to_excludes_seed.1 catA "c" 2 (mkTrack 2 "c" [0, 0])
    [mkTrack 0 "a" [5, 5], mkTrack 1 "b" [1, 0]] (by decide)

/-- Claim C6 counterexample: a `/get_range` call supplying neither bound
returns the empty-dict representation `str({})` — the value the route's
own docstring calls its failure representation — which is not the empty
track sequence the claim promises. -/
theorem getRange_no_bounds_counterexample :
    getRange [mkTrack 0 "a" []] "acousticness" none none 5 =
      RangeResult.emptyDict ∧
    RangeResult.emptyDict ≠ RangeResult.tracks [] := by
  constructor
  · rfl
  · decide

/-- Claim C6 amended: a `/get_range` call supplying neither bound runs no
query and returns the empty-dict representation `'{}'` — a normal
response rather than an exception, distinct from every track-list
response (in particular it is not the whole catalog). -/
theorem getRange_no_bounds_amended (cat : List Track) (feature : String)
    (limit : Nat) :
    getRange cat feature none none limit = RangeResult.emptyDict ∧
    RangeResult.emptyDict ≠ RangeResult.evalError ∧
    ∀ ts : List Track, RangeResult.emptyDict ≠ RangeResult.tracks ts := by
  refine ⟨rfl, by simp, fun ts => by simp⟩

/-- Claim C9: a bound equal to `0.0` is falsy in Python, so `/get_range`
treats it exactly as an absent bound: a zero `min` makes the call equal
to the corresponding max-only (or no-bound) call, and symmetrically for a
zero `max`. -/
theorem getRange_zero_bound_ignored (cat : List Track) (feature : String)
    (other : Option Int) (limit : Nat) :
    getRange cat feature (some 0) other limit =
      getRange cat feature none other limit ∧
    getRange cat feature other (some 0) limit =
      getRange cat feature other none limit := by
  constructor <;> simp [getRange, truthy]

/-- Claim C5 counterexample: a call supplying both bounds, with
`min = 0.0`, returns a track whose feature value lies outside `[0, 1]` —
the zero bound is falsy, so the query degrades to a max-only filter and a
negative loudness slips through. -/
theorem getRange_interval_counterexample :
    getRange [tNeg] "loudness" (some 0) (some 1) 5 = RangeResult.tracks [tNeg] ∧
    ¬ ((0 : Int) ≤ tNeg.loudness) := by
  constructor
  · decide
  · decide

/-- Claim C5 amended: when both supplied bounds are truthy (non-zero),
every returned track's feature value lies in `[a, b]`, the result is
capped at `limit` entries, and `a > b` yields the empty list as a normal
track-list response. -/
theorem getRange_both_bounds_amended (cat : List Track) (feature : String)
    (a b : Int) (limit : Nat) (fv : Track → Int)
    (hf : featValF feature = some fv) (ha : a ≠ 0) (hb : b ≠ 0) :
    ∃ l, getRange cat feature (some a) (some b) limit = RangeResult.tracks l ∧
      (∀ t ∈ l, a ≤ fv t ∧ fv t ≤ b) ∧
      l.length ≤ limit ∧
      (b < a → l = []) := by
  have hta : truthy (some a) = true := by simp [truthy, ha]
  have htb : truthy (some b) = true := by simp [truthy, hb]
  refine ⟨(cat.filter fun t => decide (a ≤ fv t ∧ fv t ≤ b)).take limit,
    ?_, ?_, ?_, ?_⟩
  · simp [getRange, hta, htb, hf, Option.getD]
  · intro t ht
    have := (List.mem_filter.mp (List.mem_of_mem_take ht)).2
    simpa using this
  · exact List.length_take_le _ _
  · intro hba
    have hnil : (cat.filter fun t => decide (a ≤ fv t ∧ fv t ≤ b)) = [] := by
      rw [List.filter_eq_nil_iff]
      intro t _
      simp only [decide_eq_true_eq, not_and, not_le]
      intro h₁
      omega
    rw [hnil]
    simp

/-- Witness for the amended C5 at a concrete one-track catalog. -/
theorem getRange_both_bounds_amended_witness :
    ∃ l, getRange [tNeg] "loudness" (some (-10)) (some 5) 3 =
        RangeResult.tracks l ∧
      (∀ t ∈ l, -10 ≤ Track.loudness t ∧ Track.loudness t ≤ 5) ∧
      l.length ≤ 3 ∧
      ((5 : Int) < -10 → l = []) :=
  getRange_both_bounds_amended [tNeg] "loudness" (-10) 5 3 Track.loudness rfl
    (by decide) (by decide)

/-- Claim C7 counterexample: a feature name outside the known columns
makes both routes evaluate the interpolated expression and let the
resulting Python exception escape (modelled `RangeResult.evalError` and
`none`); neither route produces an `UnknownFeature` error value. -/
theorem unknown_feature_counterexample :
    getRange [mkTrack 0 "a" []] "bogus" (some 1) (some 2) 5 =
      RangeResult.evalError ∧
    getRandom [mkTrack 0 "a" []] "bogus" 3 5 "desc" 0 = none := by
  constructor
  · decide
  · decide

/-- Claim C7 amended: for every feature name outside the known columns,
`/get_range` (when it reaches its `eval`, i.e. with truthy bounds) and
`/get_random` fail with the uncaught exception raised while evaluating
the supplied name as an expression — there is no `UnknownFeature`
result. -/
theorem unknown_feature_eval_error (cat : List Track) (feature : String)
    (a b : Int) (limit num top r : Nat) (order : String)
    (hf : featValF feature = none) (ha : a ≠ 0) (hb : b ≠ 0) :
    getRange cat feature (some a) (some b) limit = RangeResult.evalError ∧
    getRandom cat feature num top order r = none := by
  have hta : truthy (some a) = true := by simp [truthy, ha]
  have htb : truthy (some b) = true := by simp [truthy, hb]
  constructor
  · simp [getRange, hta, htb, hf]
  · simp [getRandom, hf]

/-- Witness for the amended C7 at a concrete unknown feature name. -/
theorem unknown_feature_eval_error_witness :
    getRange [mkTrack 0 "a" []] "energy sub two" (some 1) (some 2) 5 =
      RangeResult.evalError ∧
    getRandom [mkTrack 0 "a" []] "energy sub two" 3 5 "desc" 0 = none :=
  unknown_feature_eval_error [mkTrack 0 "a" []] "energy sub two" 1 2 5 3 5 0
    "desc" rfl (by decide) (by decide)

/-- Claim C8: zero-result outcomes are successes distinguishable from the
failure representations — a range query with truthy bounds matching no
track returns the empty track list (distinct from both the empty-dict
value and the eval-exception value), and a similarity query against a
catalog smaller than the request still succeeds, returning fewer than
`num` neighbors rather than an error. -/
theorem zero_results_are_success (cat : List Track) (feature : String)
    (a b : Int) (limit : Nat) (fv : Track → Int) (seed : String)
    (num : Nat) (q1 : Track)
    (hf : featValF feature = some fv) (ha : a ≠ 0) (hb : b ≠ 0)
    (hempty : ∀ t ∈ cat, ¬ (a ≤ fv t ∧ fv t ≤ b))
    (hseed : cat.find? (fun t => t.track_id == seed) = some q1)
    (hnum : cat.length ≤ num) :
    getRange cat feature (some a) (some b) limit = RangeResult.tracks [] ∧
    RangeResult.tracks ([] : List Track) ≠ RangeResult.emptyDict ∧
    RangeResult.tracks ([] : List Track) ≠ RangeResult.evalError ∧
    ∃ res, getLike cat seed num = some (q1, res) ∧ res.length < num := by
  have hta : truthy (some a) = true := by simp [truthy, ha]
  have htb : truthy (some b) = true := by simp [truthy, hb]
  have hnil : (cat.filter fun t =>
      decide (Option.getD (some a) 0 ≤ fv t ∧ fv t ≤ Option.getD (some b) 0)) = [] := by
    rw [List.filter_eq_nil_iff]
    intro t ht
    simpa using hempty t ht
  refine ⟨?_, by simp, by simp, ?_⟩
  · simp only [getRange, hta, htb, Bool.and_self, if_pos, hf]
    rw [hnil]
    simp
  · have hlike : getLike cat seed num = some (q1, cat.filter fun t =>
        decide (t.id ∈ treeQuery (cat.map Track.features) q1.features (num + 1)) &&
          (t.track_id != seed)) := by
      unfold getLike
      rw [hseed]
    refine ⟨_, hlike, ?_⟩
    have hq1mem : q1 ∈ cat := List.mem_of_find?_eq_some hseed
    have hq1tid : q1.track_id = seed := by
      have := List.find?_some hseed
      simpa using this
    have hpq1 : (decide (q1.id ∈ treeQuery (cat.map Track.features) q1.features
        (num + 1)) && (q1.track_id != seed)) = false := by
      simp [hq1tid]
    have hsub : List.Sublist (cat.filter fun t =>
        decide (t.id ∈ treeQuery (cat.map Track.features) q1.features (num + 1)) &&
          (t.track_id != seed)) cat := List.filter_sublist cat
    have hlt : (cat.filter fun t =>
        decide (t.id ∈ treeQuery (cat.map Track.features) q1.features (num + 1)) &&
          (t.track_id != seed)).length < cat.length := by
      rcases Nat.lt_or_ge (cat.filter fun t =>
          decide (t.id ∈ treeQuery (cat.map Track.features) q1.features (num + 1)) &&
            (t.track_id != seed)).length cat.length with h | h
      · exact h
      · exfalso
        have heq := hsub.eq_of_length (Nat.le_antisymm hsub.length_le h)
        have hmemf : q1 ∈ cat.filter fun t =>
            decide (t.id ∈ treeQuery (cat.map Track.features) q1.features (num + 1)) &&
              (t.track_id != seed) := by
          rw [heq]
          exact hq1mem
        have := (List.mem_filter.mp hmemf).2
        rw [hpq1] at this
        exact Bool.false_ne_true this
    omega

/-- Members of a tree-query result are positions into the row list. -/
theorem treeQuery_mem_lt {rows : List (List Int)} {v : List Int} {k : Nat}
    {i : Nat} (h : i ∈ treeQuery rows v k) : i < rows.length := by
  unfold treeQuery at h
  have h₁ := List.mem_of_mem_take h
  have h₂ := (List.perm_insertionSort _ _).mem_iff.mp h₁
  exact List.mem_range.mp h₂

/-- Claim C10: the neighbor set of a successful `get_like` call is
exactly the set of catalog tracks whose primary-key `id` lies among the
positional indices returned by the tree query, minus tracks carrying the
seed identifier; and under the row-alignment invariant (`id` = tree row
position) this set is precisely the tracks sitting at the returned tree
positions, minus the seed. -/
theorem getLike_neighbor_set (cat : List Track) (seed : String) (num : Nat)
    (q1 : Track) (res : List Track)
    (h : getLike cat seed num = some (q1, res)) :
    (∀ t, t ∈ res ↔
      t ∈ cat ∧
        t.id ∈ treeQuery (cat.map Track.features) q1.features (num + 1) ∧
        t.track_id ≠ seed) ∧
    (rowAligned cat → ∀ t, t ∈ res ↔
      (∃ i ∈ treeQuery (cat.map Track.features) q1.features (num + 1),
        cat[i]? = some t) ∧ t.track_id ≠ seed) := by
  obtain ⟨-, hres⟩ := getLike_eq_some h
  subst hres
  constructor
  · intro t
    rw [List.mem_filter]
    simp [and_assoc]
  · intro hal t
    rw [List.mem_filter]
    simp only [Bool.and_eq_true, decide_eq_true_eq, bne_iff_ne, ne_eq]
    constructor
    · rintro ⟨hmem, hid, hne⟩
      refine ⟨⟨t.id, hid, ?_⟩, hne⟩
      obtain ⟨j, hj, hget⟩ := List.mem_iff_getElem.mp hmem
      have hidj : t.id = j := by
        rw [← hget]
        exact hal j hj
      rw [hidj, List.getElem?_eq_getElem hj, hget]
    · rintro ⟨⟨i, hi, hget⟩, hne⟩
      obtain ⟨hlen, hgete⟩ := List.getElem?_eq_some_iff.mp hget
      have hmem : t ∈ cat := List.getElem?_mem hget
      have hid : t.id = i := by
        rw [← hgete]
        exact hal i hlen
      exact ⟨hmem, by rw [hid]; exact hi, hne⟩

/-- Witness for C10: the characterization instantiated at the concrete
catalog `catA`, seed `c`, `num = 2`. -/
theorem getLike_neighbor_set_witness :
    (∀ t, t ∈ [mkTrack 0 "a" [5, 5], mkTrack 1 "b" [1, 0]] ↔
      t ∈ catA ∧
        t.id ∈ treeQuery (catA.map Track.features)
          (mkTrack 2 "c" [0, 0]).features 3 ∧
        t.track_id ≠ "c") ∧
    (rowAligned catA → ∀ t, t ∈ [mkTrack 0 "a" [5, 5], mkTrack 1 "b" [1, 0]] ↔
      (∃ i ∈ treeQuery (catA.map Track.features)
          (mkTrack 2 "c" [0, 0]).features 3,
        catA[i]? = some t) ∧ t.track_id ≠ "c") :=
  getLike_neighbor_set catA "c" 2 (mkTrack 2 "c" [0, 0])
    [mkTrack 0 "a" [5, 5], mkTrack 1 "b" [1, 0]] (by decide)

/-- Claim C1 counterexample: on the spec's own 2-D illustration catalog,
`get_like` surfaces the neighbors of seed `c` as `[a, b]` — table order —
although `a` (squared distance 50) is farther than `b` (squared distance
1), so the surfaced list is not in ascending-distance order. -/
theorem get_like_order_counterexample :
    getLike catA "c" 2 =
      some (mkTrack 2 "c" [0, 0], [mkTrack 0 "a" [5, 5], mkTrack 1 "b" [1, 0]]) ∧
    ¬ List.Sorted (fun t₁ t₂ : Track =>
        sqDist t₁.features [0, 0] ≤ sqDist t₂.features [0, 0])
      [mkTrack 0 "a" [5, 5], mkTrack 1 "b" [1, 0]] := by
  constructor
  · decide
  · decide

/-- Claim C1 amended: `query_knn` (modelled from the spec) does return
its results sorted by non-decreasing distance with the lexicographic
identifier tie-break, but the neighbor list surfaced by `get_like` comes
back in catalog table order (it is a sublist of the catalog), not in
ascending-distance order — the `IN` query discards the tree's
ordering. -/
theorem queryKnn_sorted_getLike_table_order :
    (∀ (entries : List (String × List Int)) (v : List Int) (k : Nat),
      List.Sorted (keyLex Prod.snd Prod.fst) (queryKnn entries v k)) ∧
    (∀ (cat : List Track) (seed : String) (num : Nat) (q1 : Track)
        (res : List Track), getLike cat seed num = some (q1, res) →
      List.Sublist res cat) := by
  constructor
  · intro entries v k
    have hs : List.Sorted (keyLex (fun e : String × List Int => sqDist e.2 v)
        Prod.fst)
        (entries.insertionSort (keyLex (fun e => sqDist e.2 v) Prod.fst)) :=
      List.sorted_insertionSort _ _
    have hm : List.Pairwise (keyLex Prod.snd Prod.fst)
        ((entries.insertionSort (keyLex (fun e => sqDist e.2 v) Prod.fst)).map
          (fun e => (e.1, sqDist e.2 v))) := by
      refine List.Pairwise.map _ ?_ hs
      intro e₁ e₂ h
      simpa [keyLex] using h
    exact List.Pairwise.take hm
  · intro cat seed num q1 res h
    obtain ⟨-, hres⟩ := getLike_eq_some h
    subst hres
    exact List.filter_sublist cat

/-- Witness for the amended C1: the surfaced list of the counterexample
call is a sublist of `catA`. -/
theorem queryKnn_sorted_getLike_table_order_witness :
    List.Sublist [mkTrack 0 "a" [5, 5], mkTrack 1 "b" [1, 0]] catA :=
  queryKnn_sorted_getLike_table_order.2 catA "c" 2 (mkTrack 2 "c" [0, 0])
    [mkTrack 0 "a" [5, 5], mkTrack 1 "b" [1, 0]] (by decide)

/-- Claim C4 counterexample: with the five-track catalog ranked
`t1..t5`, `top = 5` and `num = 10 ≥ 5`, the draw `r = 2` (a possible
value of `int(rowCount*random.random())`, since `2 < 5`) returns only the
suffix `[t3, t4, t5]`, not the whole window the claim requires; the
offset 2 also exceeds `window_size - sample_m`. -/
theorem getRandom_window_counterexample :
    rankWindow catP Track.popularity "desc" 5 = catP ∧
    getRandom catP "popularity" 10 5 "desc" 2 =
      some [pTrack 2 "t3" 30, pTrack 3 "t4" 20, pTrack 4 "t5" 10] ∧
    some [pTrack 2 "t3" 30, pTrack 3 "t4" 20, pTrack 4 "t5" 10] ≠
      some catP := by
  refine ⟨by decide, by decide, by decide⟩

/-- Claim C4 amended: for every possible draw `r < window_size`,
`get_random` returns the contiguous block of the ranked window starting
at offset `r` and holding `min num (window_size - r)` entries, in ranked
order — the offset is uniform over `[0, window_size - 1]` (not
`[0, window_size - num]`), so blocks starting within `num` of the
window's end are truncated and the whole window is returned only at
offset `0`. -/
theorem getRandom_contiguous_block (cat : List Track) (feature : String)
    (num top r : Nat) (order : String) (fv : Track → Int)
    (hf : featValF feature = some fv)
    (hr : r < (rankWindow cat fv order top).length) :
    ∃ res pre post,
      getRandom cat feature num top order r = some res ∧
      rankWindow cat fv order top = pre ++ res ++ post ∧
      pre.length = r ∧
      res.length = min num ((rankWindow cat fv order top).length - r) ∧
      List.Sorted (featRel fv (lowerStr order == "asc")) res := by
  refine ⟨((rankWindow cat fv order top).drop r).take num,
    (rankWindow cat fv order top).take r,
    (((rankWindow cat fv order top).drop r)).drop num, ?_, ?_, ?_, ?_, ?_⟩
  · simp [getRandom, hf]
  · rw [List.append_assoc, List.take_append_drop, List.take_append_drop]
  · rw [List.length_take]
    exact Nat.min_eq_left hr.le
  · simp [List.length_take, List.length_drop]
  · have hwsorted : List.Sorted (featRel fv (lowerStr order == "asc"))
        (rankWindow cat fv order top) := by
      unfold rankWindow
      exact List.Pairwise.take (List.sorted_insertionSort _ _)
    exact List.Pairwise.sublist
      (List.Sublist.trans (List.take_sublist _ _) (List.drop_sublist _ _))
      hwsorted

/-- Witness for the amended C4: at `top = 5`, `num = 3`, draw `r = 3`,
the returned block has only `min 3 (5 - 3) = 2` entries. -/
theorem getRandom_contiguous_block_witness :
    ∃ res pre post,
      getRandom catP "popularity" 3 5 "desc" 3 = some res ∧
      rankWindow catP Track.popularity "desc" 5 = pre ++ res ++ post ∧
      pre.length = 3 ∧
      res.length = min 3 ((rankWindow catP Track.popularity "desc" 5).length - 3) ∧
      List.Sorted (featRel Track.popularity (lowerStr "desc" == "asc")) res :=
  getRandom_contiguous_block catP "popularity" 3 5 3 "desc" Track.popularity rfl
    (by decide)

/-- Witness for C8 at a concrete one-track catalog with no track in the
requested range and a similarity request for more neighbors than
exist. -/
theorem zero_results_are_success_witness :
    getRange [tNeg] "loudness" (some 5) (some 6) 4 = RangeResult.tracks [] ∧
    RangeResult.tracks ([] : List Track) ≠ RangeResult.emptyDict ∧
    RangeResult.tracks ([] : List Track) ≠ RangeResult.evalError ∧
    ∃ res, getLike [tNeg] "n" 1 = some (tNeg, res) ∧ res.length < 1 :=
  zero_results_are_success [tNeg] "loudness" 5 6 4 Track.loudness "n" 1 tNeg
    rfl (by decide) (by decide) (by decide) (by decide) (by decide)

/-- Claim C3 counterexample: in a three-track catalog whose vectors are
all identical, the tree's `k = 2` query for seed `c` (at distance 0 from
every row) returns positions `[0, 1]` under the fixed tie-break, the seed
row is not among them, and `get_like` returns 2 entries instead of
`min 1 (3 - 1) = 1`. -/
theorem similar_to_count_counterexample :
    getLike catD "c" 1 =
      some (mkTrack 2 "c" [0], [mkTrack 0 "a" [0], mkTrack 1 "b" [0]]) ∧
    ([mkTrack 0 "a" [0], mkTrack 1 "b" [0]] : List Track).length ≠
      min 1 (catD.length - 1) := by
  constructor
  · decide
  · decide

/-- A tree-query result never repeats a position. -/
theorem treeQuery_nodup (rows : List (List Int)) (v : List Int) (k : Nat) :
    (treeQuery rows v k).Nodup := by
  unfold treeQuery
  exact List.Nodup.sublist (List.take_sublist _ _)
    (((List.perm_insertionSort _ _).nodup_iff).mpr (List.nodup_range _))

/-- A tree query returns `min k n` positions, `n` the number of rows. -/
theorem treeQuery_length (rows : List (List Int)) (v : List Int) (k : Nat) :
    (treeQuery rows v k).length = min k rows.length := by
  unfold treeQuery
  rw [List.length_take, (List.perm_insertionSort _ _).length_eq,
    List.length_range]

/-- Counting by a predicate on `id` over a row-aligned catalog segment is
counting over the corresponding block of positions. -/
theorem countP_rowAligned (p : Nat → Bool) :
    ∀ (cat : List Track) (k : Nat),
      (∀ i, (h : i < cat.length) → (cat[i]).id = i + k) →
      cat.countP (fun t => p t.id) = (List.range' k cat.length).countP p := by
  intro cat
  induction cat with
  | nil =>
      intro k _
      simp
  | cons t l ih =>
      intro k hal
      have ht : t.id = k := by
        have h0 := hal 0 (by simp)
        simpa using h0
      have hl : ∀ i, (h : i < l.length) → (l[i]).id = i + (k + 1) := by
        intro i hi
        have hs := hal (i + 1) (by simpa using Nat.succ_lt_succ hi)
        simp only [List.getElem_cons_succ] at hs
        omega
      rw [List.countP_cons, List.length_cons, List.range'_succ,
        List.countP_cons, ih (k + 1) hl, ht]

/-- Counting, over `range n`, the members of a duplicate-free position
list `S` with one member `s` excluded yields `S.length - 1`. -/
theorem countP_range_mem_erase (n : Nat) (S : List Nat) (s : Nat)
    (hnd : S.Nodup) (hsub : ∀ i ∈ S, i < n) (hs : s ∈ S) :
    (List.range n).countP (fun i => decide (i ∈ S) && decide (i ≠ s)) =
      S.length - 1 := by
  rw [List.countP_eq_length_filter]
  have hperm : List.Perm ((List.range n).filter
      (fun i => decide (i ∈ S) && decide (i ≠ s))) (S.erase s) := by
    refine (List.perm_ext_iff_of_nodup
      (List.Nodup.filter _ (List.nodup_range n)) (hnd.erase s)).mpr ?_
    intro a
    simp only [List.mem_filter, List.mem_range, Bool.and_eq_true,
      decide_eq_true_eq]
    rw [List.Nodup.mem_erase_iff hnd]
    constructor
    · rintro ⟨-, haS, hane⟩
      exact ⟨hane, haS⟩
    · rintro ⟨hane, haS⟩
      exact ⟨hsub a haS, haS, hane⟩
  rw [hperm.length_eq]
  exact List.length_erase_of_mem hs

/-- Claim C3 amended: `similar_to(seed, num)` returns exactly
`min num (C - 1)` entries for a catalog of `C` points provided the
catalog is row-aligned (each row's `id` equals its tree position), track
identifiers are pairwise distinct, and the seed's own row position
appears among the `num + 1` tree-query indices — the proviso the
counterexample forces, which holds whenever the seed's vector is unique
but can fail under duplicated vectors (as spec §4.5/§9 themselves
caution). -/
theorem similar_to_count_amended (cat : List Track) (seed : String)
    (num : Nat) (q1 : Track) (res : List Track)
    (hal : rowAligned cat)
    (hnd : (cat.map Track.track_id).Nodup)
    (h : getLike cat seed num = some (q1, res))
    (hmem : q1.id ∈ treeQuery (cat.map Track.features) q1.features (num + 1)) :
    res.length = min num (cat.length - 1) := by
  obtain ⟨hfind, hres⟩ := getLike_eq_some h
  subst hres
  have hq1mem : q1 ∈ cat := List.mem_of_find?_eq_some hfind
  have hq1tid : q1.track_id = seed := by
    simpa using List.find?_some hfind
  obtain ⟨j, hj, hgj⟩ := List.mem_iff_getElem.mp hq1mem
  have htid : ∀ t ∈ cat, (t.track_id = seed ↔ t.id = q1.id) := by
    intro t hmemt
    obtain ⟨i, hi, hgi⟩ := List.mem_iff_getElem.mp hmemt
    have hti : t.id = i := by
      rw [← hgi]
      exact hal i hi
    have hqj : q1.id = j := by
      rw [← hgj]
      exact hal j hj
    have hmi : i < (cat.map Track.track_id).length := by
      simpa using hi
    have hmj : j < (cat.map Track.track_id).length := by
      simpa using hj
    constructor
    · intro hts
      have heq : (cat.map Track.track_id)[i] = (cat.map Track.track_id)[j] := by
        rw [List.getElem_map, List.getElem_map, hgi, hgj, hts, hq1tid]
      have hij : i = j := (hnd.getElem_inj_iff).mp heq
      omega
    · intro hid
      have hij : i = j := by omega
      subst hij
      have htq : t = q1 := hgi.symm.trans hgj
      rw [htq]
      exact hq1tid
  have hcong : (cat.filter fun t =>
      decide (t.id ∈ treeQuery (cat.map Track.features) q1.features (num + 1)) &&
        (t.track_id != seed)).length =
      cat.countP (fun t =>
        decide (t.id ∈ treeQuery (cat.map Track.features) q1.features (num + 1)) &&
          decide (t.id ≠ q1.id)) := by
    rw [← List.countP_eq_length_filter]
    refine List.countP_congr ?_
    intro t hmemt
    have := htid t hmemt
    constructor
    · intro hpt
      simp only [Bool.and_eq_true, decide_eq_true_eq, bne_iff_ne, ne_eq] at hpt ⊢
      exact ⟨hpt.1, fun hid => hpt.2 (this.mpr hid)⟩
    · intro hpt
      simp only [Bool.and_eq_true, decide_eq_true_eq, bne_iff_ne, ne_eq] at hpt ⊢
      exact ⟨hpt.1, fun hts => hpt.2 (this.mp hts)⟩
  rw [hcong]
  have hali : ∀ i, (h : i < cat.length) → (cat[i]).id = i + 0 := by
    intro i hi
    simpa using hal i hi
  have hlt : ∀ i ∈ treeQuery (cat.map Track.features) q1.features (num + 1),
      i < cat.length := by
    intro i hi
    have := treeQuery_mem_lt hi
    simpa using this
  refine Eq.trans (countP_rowAligned (fun i =>
      decide (i ∈ treeQuery (cat.map Track.features) q1.features (num + 1)) &&
        decide (i ≠ q1.id)) cat 0 hali) ?_
  rw [← List.range_eq_range']
  rw [countP_range_mem_erase cat.length _ q1.id
    (treeQuery_nodup _ _ _) hlt hmem]
  rw [treeQuery_length]
  have hpos : 0 < cat.length := List.length_pos_of_mem hq1mem
  rw [List.length_map]
  omega

/-- Witness for the amended C3: on the spec's illustration catalog with
seed `c` and `num = 1`, exactly `min 1 (3 - 1) = 1` entry comes back. -/
theorem similar_to_count_amended_witness :
    ([mkTrack 1 "b" [1, 0]] : List Track).length = min 1 (catA.length - 1) :=
  similar_to_count_amended catA "c" 1 (mkTrack 2 "c" [0, 0])
    [mkTrack 1 "b" [1, 0]] (by unfold rowAligned; decide) (by decide)
    (by decide) (by decide)
